import Mathlib

/-!
Shallow embedding of the attendance-to-payroll pipeline of
QuickHire-Services-Ltd (src/services/payroll_service.py,
src/controllers/attendance_controller.py, src/models/database.py).

Numeric values (hours, money) are modelled as rationals; Python's
`round(x, 2)` is modelled as round-half-to-even at two decimals.
Timestamps are modelled as calendar records; datetime subtraction and
comparison go through an absolute-seconds view computed with the
standard proleptic-Gregorian day-numbering algorithm, matching Python's
`datetime` arithmetic.  SQLite TEXT comparison (used by the `timestamp`
range filters in the queries) is bytewise, modelled by lexicographic
comparison of the character lists of the ISO strings.
-/

/-- Round half to even at integer precision, the tie-breaking rule of
Python's builtin `round`. -/
def rhe (q : ℚ) : ℤ :=
  let f : ℤ := ⌊q⌋
  let r : ℚ := q - (f : ℚ)
  if r < 1/2 then f
  else if 1/2 < r then f + 1
  else if f % 2 = 0 then f else f + 1

/-- Python's `round(x, 2)`. -/
def round2 (q : ℚ) : ℚ := ((rhe (100 * q) : ℤ) : ℚ) / 100

/-- Number of days from 1970-01-01 to the given proleptic-Gregorian date
(Hinnant's `days_from_civil`, written with floor division).  This is the
day numbering Python's `datetime`/`date` arithmetic is based on. -/
def daysFromCivil (y m d : ℤ) : ℤ :=
  let yy := if m ≤ 2 then y - 1 else y
  let era := Int.fdiv yy 400
  let yoe := yy - era * 400
  let mp := Int.emod (m + 9) 12
  let doy := Int.fdiv (153 * mp + 2) 5 + d - 1
  let doe := yoe * 365 + Int.fdiv yoe 4 - Int.fdiv yoe 100 + doy
  era * 146097 + doe - 719468

/-- A parsed timestamp (Python `datetime` with second precision, as the
data model prescribes). -/
structure DateTime where
  y : Nat
  m : Nat
  d : Nat
  hh : Nat
  mi : Nat
  ss : Nat
  deriving DecidableEq, Repr

/-- Absolute seconds since the epoch; datetime subtraction
(`total_seconds`) and datetime comparison factor through this view. -/
def DateTime.toSecs (t : DateTime) : ℤ :=
  daysFromCivil (t.y : ℤ) (t.m : ℤ) (t.d : ℤ) * 86400
    + (t.hh : ℤ) * 3600 + (t.mi : ℤ) * 60 + (t.ss : ℤ)

/-- Zero-pad a number to two digits, as Python's `:02d`. -/
def pad2 (n : Nat) : String := if n < 10 then "0" ++ toString n else toString n

/-- Zero-pad a number to four digits, as Python's `:04d`. -/
def pad4 (n : Nat) : String :=
  if n < 10 then "000" ++ toString n
  else if n < 100 then "00" ++ toString n
  else if n < 1000 then "0" ++ toString n
  else toString n

/-- Python's `dt.date().isoformat()`: the calendar-date key used for the
day buckets. -/
def DateTime.dayKey (t : DateTime) : String :=
  pad4 t.y ++ "-" ++ pad2 t.m ++ "-" ++ pad2 t.d

/-- Value of an ASCII digit character. -/
def digitVal (c : Char) : Option Nat :=
  if c.isDigit then some (c.toNat - 48) else none

/-- Timestamp parsing used by both pairing implementations
(`datetime.fromisoformat` with `strptime` fallbacks): accepts the
second-precision layout `YYYY-MM-DDTHH:MM:SS`, with `T` or a space as
separator; anything else is unparseable and the event is skipped. -/
def parseTs (s : String) : Option DateTime :=
  match s.data with
  | [y1, y2, y3, y4, c1, m1, m2, c2, d1, d2, sep, h1, h2, c3, n1, n2, c4, s1, s2] =>
    if c1 = '-' ∧ c2 = '-' ∧ (sep = 'T' ∨ sep = ' ') ∧ c3 = ':' ∧ c4 = ':' then
      match digitVal y1, digitVal y2, digitVal y3, digitVal y4, digitVal m1,
          digitVal m2, digitVal d1, digitVal d2, digitVal h1, digitVal h2,
          digitVal n1, digitVal n2, digitVal s1, digitVal s2 with
      | some a1, some a2, some a3, some a4, some b1, some b2, some e1, some e2,
        some f1, some f2, some g1, some g2, some k1, some k2 =>
        let yv := ((a1 * 10 + a2) * 10 + a3) * 10 + a4
        let mv := b1 * 10 + b2
        let dv := e1 * 10 + e2
        let hv := f1 * 10 + f2
        let nv := g1 * 10 + g2
        let sv := k1 * 10 + k2
        if 1 ≤ mv ∧ mv ≤ 12 ∧ 1 ≤ dv ∧ dv ≤ 31 ∧ hv ≤ 23 ∧ nv ≤ 59 ∧ sv ≤ 59
        then some ⟨yv, mv, dv, hv, nv, sv⟩
        else none
      | _, _, _, _, _, _, _, _, _, _, _, _, _, _ => none
    else none
  | _ => none

/-- Lexicographic order on character lists (bytewise order on the
UTF-8 bytes for ASCII strings). -/
def strLtB : List Char → List Char → Bool
  | [], [] => false
  | [], _ :: _ => true
  | _ :: _, [] => false
  | a :: as, b :: bs => if a < b then true else if b < a then false else strLtB as bs

/-- SQLite TEXT `<` (BINARY collation) on timestamp strings. -/
def strLt (s t : String) : Bool := strLtB s.data t.data

/-- SQLite TEXT `<=` on timestamp strings. -/
def strLe (s t : String) : Bool := strLt s t || s == t

/-- Row of the `employees` table (columns used by the payroll service). -/
structure EmployeeRow where
  id : Nat
  full_name : String
  rate : ℚ
  active : Bool
  deriving DecidableEq, Repr

/-- Row of the `attendance` table (columns used by the pairing scans). -/
structure AttendanceRow where
  employee_id : Nat
  event : String
  timestamp : String
  deriving DecidableEq, Repr

/-- Row of the `adjustments` table. -/
structure AdjustmentRow where
  employee_id : Nat
  year : Nat
  month : Nat
  amount : ℚ
  deriving DecidableEq, Repr

/-- Row of the `payroll_runs` table.  `id` is the AUTOINCREMENT primary
key; the schema has no uniqueness constraint on
(employee_id, year, month). -/
structure PayrollRunRow where
  id : Nat
  employee_id : Nat
  year : Nat
  month : Nat
  regular_hours : ℚ
  overtime_hours : ℚ
  hourly_rate : ℚ
  gross_pay : ℚ
  total_adjustments : ℚ
  net_pay : ℚ
  deriving DecidableEq, Repr

/-- The relational store: the four tables the payroll pipeline touches,
plus the next AUTOINCREMENT id for `payroll_runs`.  Lists keep rows in
insertion (rowid) order. -/
structure Store where
  employees : List EmployeeRow
  attendance : List AttendanceRow
  adjustments : List AdjustmentRow
  payroll_runs : List PayrollRunRow
  next_run_id : Nat
  deriving Repr

/-- The dict returned by `PayrollService.compute_for_employee`. -/
structure PayrollResult where
  employee_id : Nat
  full_name : String
  period : String
  hourly_rate : ℚ
  regular_hours : ℚ
  overtime_hours : ℚ
  gross : ℚ
  adjustments : ℚ
  tax : ℚ
  net : ℚ
  deriving DecidableEq, Repr

/-- Start of the month window of `generate`/`compute`
(`payroll_service.py` line 82): the string `"YYYY-MM-01T00:00:00"`. -/
def monthStartStr (y m : Nat) : String := pad4 y ++ "-" ++ pad2 m ++ "-01T00:00:00"

/-- Exclusive end of the month window (`payroll_service.py` lines 83-86):
January 1 of the next year when `m = 12`, otherwise the first of the
next month. -/
def monthEndStr (y m : Nat) : String :=
  if m = 12 then pad4 (y + 1) ++ "-01-01T00:00:00"
  else pad4 y ++ "-" ++ pad2 (m + 1) ++ "-01T00:00:00"

/-- The `timestamp >= start AND timestamp < end` filter of the attendance
query (`payroll_service.py` lines 88-89), at SQLite TEXT comparison. -/
def inWindow (y m : Nat) (ts : String) : Bool :=
  strLe (monthStartStr y m) ts && strLt ts (monthEndStr y m)

/-- Rows returned by the service's attendance query: the employee's rows
inside the month window, in `ORDER BY timestamp` (stable on ties, i.e.
insertion order). -/
def attendanceRowsFor (store : Store) (eid y m : Nat) : List AttendanceRow :=
  (store.attendance.filter
      (fun r => r.employee_id == eid && inWindow y m r.timestamp)).mergeSort
    (fun a b => strLe a.timestamp b.timestamp)

/-- The `parsed` list of the service scan: each row's timestamp parsed,
unparseable rows skipped (`payroll_service.py` lines 90-104). -/
def parsedEventsFor (store : Store) (eid y m : Nat) : List (String × DateTime) :=
  (attendanceRowsFor store eid y m).filterMap
    (fun r => (parseTs r.timestamp).map (fun dt => (r.event, dt)))

/-- The inner `while` of both scans: the index of the first `sign_out` at
position `k` or later, or `parsed.length` if there is none. -/
def findOut (parsed : List (String × DateTime)) (k : Nat) : Nat :=
  k + (parsed.drop k).findIdx (fun e => e.1 == "sign_out")

/-- Cursor update of one iteration of the scan loop, shared verbatim by
`_aggregate_hours_by_day` (lines 107-128) and `compute_hours_for_day`
(lines 78-91): on a `sign_in` whose forward search finds a `sign_out` at
`j`, the cursor moves to `j + 1` (whether or not the pair is accepted);
in every other case it moves to `i + 1`. -/
def stepCursor (parsed : List (String × DateTime)) (i : Nat) : Nat :=
  match parsed[i]? with
  | none => i
  | some e =>
    if e.1 = "sign_in" then
      if findOut parsed (i + 1) < parsed.length then findOut parsed (i + 1) + 1
      else i + 1
    else i + 1

/-- Bucket contribution of one iteration of the service scan
(`payroll_service.py` lines 115-121): when a `sign_in` is matched with a
strictly later `sign_out`, the duration in hours keyed by the sign-in's
calendar date; otherwise nothing. -/
def svcContrib (parsed : List (String × DateTime)) (i : Nat) :
    Option (String × ℚ) :=
  match parsed[i]?, parsed[findOut parsed (i + 1)]? with
  | some e, some o =>
    if e.1 = "sign_in" ∧ e.2.toSecs < o.2.toSecs then
      some (e.2.dayKey, ((o.2.toSecs - e.2.toSecs : ℤ) : ℚ) / 3600)
    else none
  | _, _ => none

/-- Seconds contribution of one iteration of the controller scan
(`attendance_controller.py` lines 84-87): `max(0, delta.total_seconds())`
for a found `sign_out`, otherwise nothing. -/
def ctlContrib (parsed : List (String × DateTime)) (i : Nat) : ℚ :=
  match parsed[i]?, parsed[findOut parsed (i + 1)]? with
  | some e, some o =>
    if e.1 = "sign_in" then max 0 ((o.2.toSecs - e.2.toSecs : ℤ) : ℚ) else 0
  | _, _ => 0

/-- Lookup in a day-hours bucket list; absent keys read as the
defaultdict default `0.0`. -/
def lookupQ (b : List (String × ℚ)) (d : String) : ℚ :=
  match b.find? (fun p => p.1 == d) with
  | some p => p.2
  | none => 0

/-- The defaultdict update `day_hours[day_key] += duration`: add to the
entry of the key if present, append a fresh entry otherwise (Python dicts
keep insertion order). -/
def addHours (b : List (String × ℚ)) (d : String) (h : ℚ) : List (String × ℚ) :=
  if b.any (fun p => p.1 == d) then
    b.map (fun p => if p.1 == d then (p.1, p.2 + h) else p)
  else b ++ [(d, h)]

/-- The service's pairing `while` loop (`payroll_service.py` lines
107-128), fuel-indexed: one fuel unit per iteration; exhausted fuel and a
finished cursor both return the buckets unchanged, and
`parsed.length + 1` fuel is always enough since the cursor strictly
advances. -/
def svcAuxF : Nat → List (String × DateTime) → Nat → List (String × ℚ) →
    List (String × ℚ)
  | 0, _, _, b => b
  | fuel + 1, parsed, i, b =>
    if i < parsed.length then
      svcAuxF fuel parsed (stepCursor parsed i)
        (match svcContrib parsed i with
         | some p => addHours b p.1 p.2
         | none => b)
    else b

/-- The complete service scan on a parsed event list: the returned
`day_hours` mapping. -/
def svcPairEvents (parsed : List (String × DateTime)) : List (String × ℚ) :=
  svcAuxF (parsed.length + 1) parsed 0 []

/-- `PayrollService._aggregate_hours_by_day` (the raw-table path; the
`AttendanceModel` wrapper referenced by the other path does not exist in
the repository, so the fallback is the only live code path). -/
def aggregate_hours_by_day (store : Store) (eid y m : Nat) : List (String × ℚ) :=
  svcPairEvents (parsedEventsFor store eid y m)

/-- The controller's pairing `while` loop (`attendance_controller.py`
lines 78-91), fuel-indexed like `svcAuxF`; accumulates `total_seconds`. -/
def ctlAuxF : Nat → List (String × DateTime) → Nat → ℚ → ℚ
  | 0, _, _, acc => acc
  | fuel + 1, parsed, i, acc =>
    if i < parsed.length then
      ctlAuxF fuel parsed (stepCursor parsed i) (acc + ctlContrib parsed i)
    else acc

/-- The complete controller scan: `total_seconds` for a parsed list. -/
def ctlTotalSeconds (parsed : List (String × DateTime)) : ℚ :=
  ctlAuxF (parsed.length + 1) parsed 0 0

/-- `PayrollService._get_employee_rate`: `SELECT rate FROM employees
WHERE id = ? AND active = 1`, error when no row. -/
def get_employee_rate (store : Store) (eid : Nat) : Except String ℚ :=
  match store.employees.find? (fun e => e.id == eid && e.active) with
  | some e => Except.ok e.rate
  | none => Except.error "Employee not found or inactive"

/-- `PayrollService._sum_adjustments`: `COALESCE(SUM(amount), 0)` over
the employee's adjustments of the period. -/
def sum_adjustments (store : Store) (eid y m : Nat) : ℚ :=
  ((store.adjustments.filter
      (fun a => a.employee_id == eid && a.year == y && a.month == m)).map
    (fun a => a.amount)).sum

/-- `regular_hours = sum(min(8.0, h) for h in day_hours.values())`
(`payroll_service.py` line 148). -/
def regularAgg (dh : List (String × ℚ)) : ℚ := (dh.map (fun p => min 8 p.2)).sum

/-- `overtime_hours = sum(max(0.0, h - 8.0) for h in day_hours.values())`
(`payroll_service.py` line 149). -/
def overtimeAgg (dh : List (String × ℚ)) : ℚ := (dh.map (fun p => max 0 (p.2 - 8))).sum

/-- Rate resolution at the head of `compute_for_employee`: an explicitly
passed rate, otherwise the employee record's rate. -/
def resolveRate (store : Store) (eid : Nat) (hourly_rate : Option ℚ) :
    Except String ℚ :=
  match hourly_rate with
  | some r => Except.ok r
  | none => get_employee_rate store eid

/-- `PayrollService.compute_for_employee` (lines 132-169), with the
constructor defaults `overtime_multiplier = 1.5` and
`TaxPolicy.rate = 0.15`.  A raised `ValueError` is an `Except.error`. -/
def compute_for_employee (store : Store) (eid y m : Nat)
    (hourly_rate : Option ℚ) : Except String PayrollResult :=
  match resolveRate store eid hourly_rate with
  | Except.error e => Except.error e
  | Except.ok rate =>
    match store.employees.find? (fun e => e.id == eid && e.active) with
    | none => Except.error ("Employee " ++ toString eid ++ " not found or inactive")
    | some emp =>
      let day_hours := aggregate_hours_by_day store eid y m
      let regular_hours := regularAgg day_hours
      let overtime_hours := overtimeAgg day_hours
      let gross := round2 (regular_hours * rate + overtime_hours * rate * (3/2))
      let adjustments := round2 (sum_adjustments store eid y m)
      let net_before_tax := gross + adjustments
      let tax := round2 (net_before_tax * (15/100))
      let net := round2 (net_before_tax - tax)
      Except.ok ⟨eid, emp.full_name, pad4 y ++ "-" ++ pad2 m, round2 rate,
        round2 regular_hours, round2 overtime_hours, gross, adjustments, tax, net⟩

/-- The `(employee_id, year, month)` key predicate on `payroll_runs`. -/
def runKey (eid y m : Nat) (r : PayrollRunRow) : Bool :=
  r.employee_id == eid && r.year == y && r.month == m

/-- The `payroll_runs` row written for a computed result, carrying the
next AUTOINCREMENT id. -/
def newRunRow (store : Store) (eid y m : Nat) (pr : PayrollResult) : PayrollRunRow :=
  ⟨store.next_run_id, eid, y, m, pr.regular_hours, pr.overtime_hours,
    pr.hourly_rate, pr.gross, pr.adjustments, pr.net⟩

/-- The plain `INSERT INTO payroll_runs` used by both
`persist_for_employee` (lines 185-188) and `generate_payroll_for_month`
(lines 205-208): appends a fresh row with the next AUTOINCREMENT id. -/
def insertRun (store : Store) (eid y m : Nat) (pr : PayrollResult) : Store :=
  ⟨store.employees, store.attendance, store.adjustments,
    store.payroll_runs ++ [newRunRow store eid y m pr], store.next_run_id + 1⟩

/-- The row rewrite of the `UPDATE payroll_runs SET ... WHERE id = ?`
statement (lines 180-183): overwrite the computed fields of the rows
whose `id` matches; key fields and `id` are not touched. -/
def updateRunRow (rid : Nat) (pr : PayrollResult) (r : PayrollRunRow) :
    PayrollRunRow :=
  if r.id == rid then
    ⟨r.id, r.employee_id, r.year, r.month, pr.regular_hours, pr.overtime_hours,
      pr.hourly_rate, pr.gross, pr.adjustments, pr.net⟩
  else r

/-- The existence-check-then-write of `persist_for_employee` (lines
178-188): `UPDATE ... WHERE id = ?` of the found row's computed fields
when a row for the key exists, plain insert otherwise. -/
def upsertRun (store : Store) (eid y m : Nat) (pr : PayrollResult) : Store :=
  match store.payroll_runs.find? (runKey eid y m) with
  | some ex =>
    ⟨store.employees, store.attendance, store.adjustments,
      store.payroll_runs.map (updateRunRow ex.id pr), store.next_run_id⟩
  | none => insertRun store eid y m pr

/-- `PayrollService.persist_for_employee` (lines 171-189).  An exception
raised by `compute_for_employee` propagates before any write, so the
store is returned unchanged in the error case. -/
def persist_for_employee (store : Store) (eid y m : Nat)
    (hourly_rate : Option ℚ) : Store × Except String PayrollResult :=
  match compute_for_employee store eid y m hourly_rate with
  | Except.error e => (store, Except.error e)
  | Except.ok pr => (upsertRun store eid y m pr, Except.ok pr)

/-- The per-employee loop of `generate_payroll_for_month` (lines
198-212): compute with the employee row's rate, insert and collect on
success; catch, log and continue on failure. -/
def generateAux (y m : Nat) : List EmployeeRow → Store → List PayrollResult →
    Store × List PayrollResult
  | [], store, acc => (store, acc)
  | e :: rest, store, acc =>
    match compute_for_employee store e.id y m (some e.rate) with
    | Except.ok pr => generateAux y m rest (insertRun store e.id y m pr) (acc ++ [pr])
    | Except.error _ => generateAux y m rest store acc

/-- `PayrollService.generate_payroll_for_month` (lines 191-212): iterate
the active employees (`SELECT ... WHERE active = 1`). -/
def generate_payroll_for_month (store : Store) (y m : Nat) :
    Store × List PayrollResult :=
  generateAux y m (store.employees.filter (fun e => e.active)) store []

/-- Rows returned by the controller's day query
(`attendance_controller.py` lines 59-62): `timestamp BETWEEN
dateT00:00:00 AND dateT23:59:59` (both ends inclusive), ordered. -/
def dayRowsFor (store : Store) (eid : Nat) (date : String) : List AttendanceRow :=
  (store.attendance.filter (fun r =>
      r.employee_id == eid && strLe (date ++ "T00:00:00") r.timestamp
        && strLe r.timestamp (date ++ "T23:59:59"))).mergeSort
    (fun a b => strLe a.timestamp b.timestamp)

/-- The controller's `parsed` list (lines 64-75): timestamps parsed,
unparseable rows skipped. -/
def parsedDayEvents (store : Store) (eid : Nat) (date : String) :
    List (String × DateTime) :=
  (dayRowsFor store eid date).filterMap
    (fun r => (parseTs r.timestamp).map (fun dt => (r.event, dt)))

/-- The dict returned by `compute_hours_for_day`. -/
structure DayHours where
  date : String
  regular_hours : ℚ
  overtime_hours : ℚ
  total_hours : ℚ
  deriving DecidableEq, Repr

/-- `AttendanceController.compute_hours_for_day` (lines 57-96). -/
def compute_hours_for_day (store : Store) (eid : Nat) (date : String) : DayHours :=
  let hours := round2 (ctlTotalSeconds (parsedDayEvents store eid date) / 3600)
  ⟨date, round2 (min 8 hours), round2 (max 0 (hours - 8)), hours⟩

/-- Concrete store for the 11-hour scenario of the spec: one active
employee at rate 10, one sign-in/sign-out pair 08:00-19:00 on
2024-03-05, one adjustment of -50 for 2024-03. -/
def store2 : Store :=
  ⟨[⟨1, "Alice", 10, true⟩],
   [⟨1, "sign_in", "2024-03-05T08:00:00"⟩, ⟨1, "sign_out", "2024-03-05T19:00:00"⟩],
   [⟨1, 2024, 3, -50⟩], [], 1⟩

/-- Concrete store with one active employee and no attendance events. -/
def storeC1 : Store := ⟨[⟨1, "Alice", 10, true⟩], [], [], [], 1⟩

/-- Concrete store whose only employee is inactive. -/
def storeGhost : Store := ⟨[⟨7, "Bob", 12, false⟩], [], [], [], 1⟩

/-- The zero-hours payroll result of `storeC1`'s employee for 2024-01. -/
def resultZero : PayrollResult := ⟨1, "Alice", "2024-01", 10, 0, 0, 0, 0, 0, 0⟩

/-- The `payroll_runs` row persisted for `resultZero`. -/
def runRowZero : PayrollRunRow := ⟨1, 1, 2024, 1, 0, 0, 10, 0, 0, 0⟩

/-- `storeC1` after one persisted zero-hours run. -/
def storeC4a : Store := ⟨[⟨1, "Alice", 10, true⟩], [], [], [runRowZero], 2⟩

/-- Parsed event list with a sign-in whose forward search finds a
sign-out that is not strictly later (all three timestamps equal). -/
def evRej : List (String × DateTime) :=
  [("sign_in", ⟨2024, 1, 15, 9, 0, 0⟩), ("correction", ⟨2024, 1, 15, 9, 0, 0⟩),
   ("sign_out", ⟨2024, 1, 15, 9, 0, 0⟩)]

/-- Parsed overnight pair: sign-in 22:00, sign-out 06:00 the next day. -/
def evOvernight : List (String × DateTime) :=
  [("sign_in", ⟨2024, 1, 15, 22, 0, 0⟩), ("sign_out", ⟨2024, 1, 16, 6, 0, 0⟩)]

/-- Two matched pairs on the same calendar day (3h and 4h). -/
def evTwoPairs : List (String × DateTime) :=
  [("sign_in", ⟨2024, 1, 15, 9, 0, 0⟩), ("sign_out", ⟨2024, 1, 15, 12, 0, 0⟩),
   ("sign_in", ⟨2024, 1, 15, 13, 0, 0⟩), ("sign_out", ⟨2024, 1, 15, 17, 0, 0⟩)]

/-- One matched 3-hour pair on 2024-02-10. -/
def evC10 : List (String × DateTime) :=
  [("sign_in", ⟨2024, 2, 10, 9, 0, 0⟩), ("sign_out", ⟨2024, 2, 10, 12, 0, 0⟩)]

/-- The parsed events of `store2`'s March 2024 attendance. -/
def evScenario : List (String × DateTime) :=
  [("sign_in", ⟨2024, 3, 5, 8, 0, 0⟩), ("sign_out", ⟨2024, 3, 5, 19, 0, 0⟩)]

/-- The forward search never returns an index before its start. -/
theorem findOut_ge (parsed : List (String × DateTime)) (k : Nat) :
    k ≤ findOut parsed k :=
  Nat.le_add_right k _

/-- The scan cursor strictly advances while it is inside the list. -/
theorem stepCursor_lt (parsed : List (String × DateTime)) (i : Nat)
    (h : i < parsed.length) : i < stepCursor parsed i := by
  unfold stepCursor
  rw [List.getElem?_eq_getElem h]
  dsimp only
  split
  · split
    · have := findOut_ge parsed (i + 1)
      omega
    · omega
  · omega

/-- Reading an absent key of a bucket list gives the defaultdict `0`. -/
theorem lookupQ_nil (d : String) : lookupQ [] d = 0 := rfl

/-- Updating every matching entry adds `h` to the first match read back,
and changes nothing when no entry matches. -/
theorem lookupQ_map_add (t : List (String × ℚ)) (d : String) (h : ℚ) :
    lookupQ (t.map (fun p => if p.1 == d then (p.1, p.2 + h) else p)) d =
      (if t.any (fun p => p.1 == d) then lookupQ t d + h else lookupQ t d) := by
  induction t with
  | nil => simp [lookupQ]
  | cons p t ih =>
    by_cases hp : p.1 = d
    · have hb : (p.1 == d) = true := by simpa using hp
      simp only [List.map_cons, hb, if_true, List.any_cons, Bool.true_or]
      unfold lookupQ
      have hf1 : List.find? (fun q : String × ℚ => q.1 == d)
          ((p.1, p.2 + h) :: t.map (fun q => if q.1 == d then (q.1, q.2 + h) else q)) =
          some (p.1, p.2 + h) := List.find?_cons_of_pos _ hb
      have hf2 : List.find? (fun q : String × ℚ => q.1 == d) (p :: t) = some p :=
        List.find?_cons_of_pos _ hb
      rw [hf1, hf2]
    · have hb : (p.1 == d) = false := by simpa using hp
      simp only [List.map_cons, hb, Bool.false_eq_true, if_false, List.any_cons,
        Bool.false_or]
      unfold lookupQ
      rw [List.find?_cons_of_neg _ (by simp [hb]), List.find?_cons_of_neg _ (by simp [hb])]
      exact ih

/-- Reading the key just appended to a bucket list with no prior entry
for it. -/
theorem lookupQ_append_fresh (t : List (String × ℚ)) (d : String) (h : ℚ)
    (hnone : t.any (fun p => p.1 == d) = false) :
    lookupQ (t ++ [(d, h)]) d = lookupQ t d + h := by
  have hfind : t.find? (fun p => p.1 == d) = none := by
    rw [List.find?_eq_none]
    intro x hx
    have := List.any_eq_false.mp hnone x hx
    simpa using this
  have h2 : List.find? (fun p => p.1 == d) [(d, h)] = some (d, h) :=
    List.find?_cons_of_pos _ (by simp)
  unfold lookupQ
  rw [List.find?_append, hfind, h2]
  simp

/-- Bucket accumulation is additive: `day_hours[d] += h` raises the value
read at `d` by exactly `h`. -/
theorem lookupQ_addHours (b : List (String × ℚ)) (d : String) (h : ℚ) :
    lookupQ (addHours b d h) d = lookupQ b d + h := by
  cases hany : b.any (fun p => p.1 == d) with
  | true =>
    have heq := lookupQ_map_add b d h
    rw [if_pos hany] at heq
    unfold addHours
    rw [if_pos hany]
    exact heq
  | false =>
    unfold addHours
    rw [if_neg (by rw [hany]; exact Bool.false_ne_true)]
    exact lookupQ_append_fresh b d h hany

/-- The controller loop's accumulator is a plain running sum: starting
from `acc` gives `acc` plus the total from a zero start. -/
theorem ctlAuxF_acc (fuel : Nat) :
    ∀ (parsed : List (String × DateTime)) (i : Nat) (acc : ℚ),
    ctlAuxF fuel parsed i acc = acc + ctlAuxF fuel parsed i 0 := by
  induction fuel with
  | zero =>
    intro parsed i acc
    simp [ctlAuxF]
  | succ fuel ih =>
    intro parsed i acc
    by_cases hi : i < parsed.length
    · simp only [ctlAuxF, if_pos hi]
      rw [ih parsed _ (acc + ctlContrib parsed i), ih parsed _ (0 + ctlContrib parsed i)]
      ring
    · simp [ctlAuxF, hi]

/-- One iteration of the two scans agrees: the amount the service step
adds to the bucket of the common day equals the seconds the controller
step adds, divided by 3600. -/
theorem contrib_agree (parsed : List (String × DateTime)) (d : String)
    (hall : ∀ e ∈ parsed, e.2.dayKey = d) (i : Nat) (b : List (String × ℚ)) :
    lookupQ (match svcContrib parsed i with
             | some p => addHours b p.1 p.2
             | none => b) d = lookupQ b d + ctlContrib parsed i / 3600 := by
  cases hi : parsed[i]? with
  | none =>
    unfold svcContrib ctlContrib
    rw [hi]
    simp
  | some e =>
    cases ho : parsed[findOut parsed (i + 1)]? with
    | none =>
      unfold svcContrib ctlContrib
      rw [hi, ho]
      simp
    | some o =>
      have hmem : e ∈ parsed := by
        obtain ⟨h1, h2⟩ := List.getElem?_eq_some_iff.mp hi
        exact h2 ▸ List.getElem_mem h1
      by_cases hin : e.1 = "sign_in"
      · by_cases hlt : e.2.toSecs < o.2.toSecs
        · have hdk : e.2.dayKey = d := hall e hmem
          have hpos : (0 : ℚ) < ((o.2.toSecs - e.2.toSecs : ℤ) : ℚ) := by
            exact_mod_cast Int.sub_pos.mpr hlt
          unfold svcContrib ctlContrib
          rw [hi, ho]
          dsimp only
          rw [if_pos ⟨hin, hlt⟩, if_pos hin, max_eq_right hpos.le, hdk]
          exact lookupQ_addHours b d _
        · have hnp : ((o.2.toSecs - e.2.toSecs : ℤ) : ℚ) ≤ 0 := by
            exact_mod_cast sub_nonpos.mpr (not_lt.mp hlt)
          unfold svcContrib ctlContrib
          rw [hi, ho]
          dsimp only
          rw [if_neg (fun hc => hlt hc.2), if_pos hin, max_eq_left hnp]
          simp
      · unfold svcContrib ctlContrib
        rw [hi, ho]
        dsimp only
        rw [if_neg (fun hc => hin hc.1), if_neg hin]
        simp

/-- The two scan loops agree step for step: with every event on the one
day `d`, the service's bucket at `d` grows by exactly the controller's
seconds total divided by 3600, at every fuel, cursor and start bucket. -/
theorem svc_ctl_agree (d : String) (fuel : Nat) :
    ∀ (parsed : List (String × DateTime)), (∀ e ∈ parsed, e.2.dayKey = d) →
    ∀ (i : Nat) (b : List (String × ℚ)),
    lookupQ (svcAuxF fuel parsed i b) d =
      lookupQ b d + ctlAuxF fuel parsed i 0 / 3600 := by
  induction fuel with
  | zero =>
    intro parsed hall i b
    simp [svcAuxF, ctlAuxF]
  | succ fuel ih =>
    intro parsed hall i b
    by_cases hi : i < parsed.length
    · simp only [svcAuxF, ctlAuxF, if_pos hi]
      rw [ih parsed hall _ _, contrib_agree parsed d hall i b,
        ctlAuxF_acc fuel parsed _ (0 + ctlContrib parsed i)]
      ring
    · simp [svcAuxF, ctlAuxF, hi]

/-- C10: the two independent pairing implementations agree.  For every
parsed event sequence on one calendar date `d`, the controller's
`total_hours` (its seconds total over 3600, rounded to 2 decimals)
equals the service's day bucket at `d` rounded to 2 decimals; and the
exposed `compute_hours_for_day` / `_aggregate_hours_by_day` are exactly
these two scans. -/
theorem c10_controller_service_agree :
    (∀ (parsed : List (String × DateTime)) (d : String),
      (∀ e ∈ parsed, e.2.dayKey = d) →
      round2 (ctlTotalSeconds parsed / 3600) =
        round2 (lookupQ (svcPairEvents parsed) d)) ∧
    (∀ (store : Store) (eid : Nat) (date : String),
      (compute_hours_for_day store eid date).total_hours =
        round2 (ctlTotalSeconds (parsedDayEvents store eid date) / 3600)) ∧
    (∀ (store : Store) (eid y m : Nat),
      aggregate_hours_by_day store eid y m =
        svcPairEvents (parsedEventsFor store eid y m)) := by
  refine ⟨?_, fun store eid date => rfl, fun store eid y m => rfl⟩
  intro parsed d hall
  have h := svc_ctl_agree d (parsed.length + 1) parsed hall 0 []
  rw [lookupQ_nil, zero_add] at h
  unfold svcPairEvents ctlTotalSeconds
  rw [h]

/-- Witness for C10 at a concrete one-day event list. -/
theorem c10_controller_service_agree_witness :
    round2 (ctlTotalSeconds evC10 / 3600) =
      round2 (lookupQ (svcPairEvents evC10) "2024-02-10") :=
  c10_controller_service_agree.1 evC10 "2024-02-10" (by decide)

/-- C5: the period aggregator sums `min(8, h)` into regular hours and
`max(0, h - 8)` into overtime hours over exactly the days present in the
mapping, and per day the two parts add back to the day's hours. -/
theorem c5_period_aggregator_split (dh : List (String × ℚ)) :
    regularAgg dh = (dh.map (fun p => min 8 p.2)).sum ∧
    overtimeAgg dh = (dh.map (fun p => max 0 (p.2 - 8))).sum ∧
    (∀ h : ℚ, min 8 h + max 0 (h - 8) = h) ∧
    regularAgg dh + overtimeAgg dh = (dh.map (fun p => p.2)).sum := by
  have key : ∀ h : ℚ, min 8 h + max 0 (h - 8) = h := by
    intro h
    rcases le_total h 8 with hc | hc
    · rw [min_eq_right hc, max_eq_left (by linarith)]
      ring
    · rw [min_eq_left hc, max_eq_right (by linarith)]
      ring
  refine ⟨rfl, rfl, key, ?_⟩
  induction dh with
  | nil => simp [regularAgg, overtimeAgg]
  | cons p t ih =>
    simp only [regularAgg, overtimeAgg, List.map_cons, List.sum_cons] at ih ⊢
    have hp := key p.2
    linarith

/-- C3 counterexample: at `evRej` the sign-in at index 0 finds the
sign-out at index 2, which is not strictly later; the sign-in
contributes nothing, but the cursor moves to 3 — past the rejected
sign-out and the intermediate event — not to 1 as the claim states. -/
theorem c3_cursor_counterexample :
    evRej[0]? = some ("sign_in", ⟨2024, 1, 15, 9, 0, 0⟩) ∧
    findOut evRej 1 = 2 ∧
    evRej[2]? = some ("sign_out", ⟨2024, 1, 15, 9, 0, 0⟩) ∧
    ¬ (⟨2024, 1, 15, 9, 0, 0⟩ : DateTime).toSecs <
      (⟨2024, 1, 15, 9, 0, 0⟩ : DateTime).toSecs ∧
    svcContrib evRej 0 = none ∧
    stepCursor evRej 0 = 3 ∧ ¬ stepCursor evRej 0 = 0 + 1 := by
  decide

/-- C3 as amended: a sign-in whose found sign-out is not strictly later
contributes zero hours and the cursor advances past the rejected
sign-out, to `j + 1`; only when no sign-out is found at all does the
cursor advance by exactly one. -/
theorem c3_rejected_signout_cursor (parsed : List (String × DateTime)) (i : Nat)
    (e : String × DateTime) (he : parsed[i]? = some e) (hin : e.1 = "sign_in") :
    (∀ o, parsed[findOut parsed (i + 1)]? = some o → ¬ e.2.toSecs < o.2.toSecs →
      svcContrib parsed i = none ∧
      stepCursor parsed i = findOut parsed (i + 1) + 1) ∧
    (parsed[findOut parsed (i + 1)]? = none →
      svcContrib parsed i = none ∧ stepCursor parsed i = i + 1) := by
  constructor
  · intro o ho hlt
    constructor
    · unfold svcContrib
      rw [he, ho]
      dsimp only
      rw [if_neg (fun hc => hlt hc.2)]
    · unfold stepCursor
      rw [he]
      dsimp only
      rw [if_pos hin]
      have hj : findOut parsed (i + 1) < parsed.length :=
        (List.getElem?_eq_some_iff.mp ho).1
      rw [if_pos hj]
  · intro ho
    constructor
    · unfold svcContrib
      rw [he, ho]
    · unfold stepCursor
      rw [he]
      dsimp only
      rw [if_pos hin]
      have hj : ¬ findOut parsed (i + 1) < parsed.length := by
        intro hc
        rw [List.getElem?_eq_getElem hc] at ho
        exact Option.noConfusion ho
      rw [if_neg hj]

/-- Witness for the amended C3 at the concrete rejected pair of
`evRej`. -/
theorem c3_rejected_signout_cursor_witness :
    svcContrib evRej 0 = none ∧ stepCursor evRej 0 = findOut evRej 1 + 1 :=
  (c3_rejected_signout_cursor evRej 0 ("sign_in", ⟨2024, 1, 15, 9, 0, 0⟩)
    (by decide) (by decide)).1 ("sign_out", ⟨2024, 1, 15, 9, 0, 0⟩)
    (by decide) (by decide)

/-- C6: the service selects, for every store and employee, exactly the
events in the half-open TEXT window `[YYYY-MM-01T00:00:00,
nextMonthStart)`; December rolls over to January 1 of the next year, the
other months to their successor; and the spec's boundary instants land
on the claimed sides. -/
theorem c6_month_window_boundaries :
    (∀ (store : Store) (eid y m : Nat) (r : AttendanceRow),
      r ∈ attendanceRowsFor store eid y m ↔
        r ∈ store.attendance ∧ r.employee_id = eid ∧
          inWindow y m r.timestamp = true) ∧
    (∀ y : Nat, monthEndStr y 12 = monthStartStr (y + 1) 1) ∧
    (∀ y m : Nat, ¬ m = 12 → monthEndStr y m = monthStartStr y (m + 1)) ∧
    inWindow 2024 12 "2024-12-31T23:59:59" = true ∧
    inWindow 2024 12 "2025-01-01T00:00:00" = false ∧
    inWindow 2025 1 "2025-01-01T00:00:00" = true ∧
    inWindow 2024 12 "2024-11-30T23:59:59" = false := by
  refine ⟨?_, ?_, ?_, by decide, by decide, by decide, by decide⟩
  · intro store eid y m r
    unfold attendanceRowsFor
    rw [(List.mergeSort_perm _ _).mem_iff, List.mem_filter]
    simp [Bool.and_eq_true, beq_iff_eq, and_assoc]
  · intro y
    unfold monthEndStr monthStartStr
    rw [if_pos rfl]
    rw [show pad2 1 = "01" from by decide, String.append_assoc, String.append_assoc]
    congr 1
  · intro y m hm
    unfold monthEndStr monthStartStr
    rw [if_neg hm]

/-- Witness for C6's non-December rollover rule at March 2024. -/
theorem c6_month_window_boundaries_witness :
    monthEndStr 2024 3 = monthStartStr 2024 4 :=
  c6_month_window_boundaries.2.2.1 2024 3 (by decide)

/-- Payroll computation reads only the employees, attendance and
adjustments tables, never `payroll_runs` or the id counter. -/
theorem compute_store_ext (s t : Store) (he : s.employees = t.employees)
    (ha : s.attendance = t.attendance) (hj : s.adjustments = t.adjustments)
    (eid y m : Nat) (hr : Option ℚ) :
    compute_for_employee s eid y m hr = compute_for_employee t eid y m hr := by
  cases s
  cases t
  dsimp only at he ha hj
  subst he
  subst ha
  subst hj
  rfl

/-- C7: `compute_for_employee` succeeds exactly when the employee exists
and is active (in particular, with no attendance events it still
succeeds — zero hours is a computed result, not an error), and a failing
`persist_for_employee` leaves the store untouched. -/
theorem c7_notfound_iff_no_persist (store : Store) (eid y m : Nat) :
    ((∃ r, compute_for_employee store eid y m none = Except.ok r) ↔
      ∃ e ∈ store.employees, e.id = eid ∧ e.active = true) ∧
    (∀ msg, (persist_for_employee store eid y m none).2 = Except.error msg →
      (persist_for_employee store eid y m none).1 = store) := by
  constructor
  · cases hf : store.employees.find? (fun e => e.id == eid && e.active) with
    | none =>
      constructor
      · rintro ⟨r, hr⟩
        unfold compute_for_employee resolveRate get_employee_rate at hr
        rw [hf] at hr
        exact Except.noConfusion hr
      · rintro ⟨e, he, hid, hact⟩
        have := List.find?_eq_none.mp hf e he
        simp [hid, hact] at this
    | some e =>
      have hpe := List.find?_some hf
      have hme := List.mem_of_find?_eq_some hf
      simp only [Bool.and_eq_true, beq_iff_eq] at hpe
      constructor
      · intro _
        exact ⟨e, hme, hpe.1, hpe.2⟩
      · intro _
        unfold compute_for_employee resolveRate get_employee_rate
        rw [hf]
        exact ⟨_, rfl⟩
  · intro msg hmsg
    cases hc : compute_for_employee store eid y m none with
    | error err =>
      unfold persist_for_employee
      rw [hc]
    | ok pr =>
      unfold persist_for_employee at hmsg
      rw [hc] at hmsg
      simp at hmsg

/-- Witness for C7: the inactive employee of `storeGhost` makes
computation fail and persistence leave the store unchanged. -/
theorem c7_notfound_iff_no_persist_witness :
    (¬ ∃ r, compute_for_employee storeGhost 7 2024 1 none = Except.ok r) ∧
    (persist_for_employee storeGhost 7 2024 1 none).1 = storeGhost := by
  constructor
  · intro hr
    have hex := (c7_notfound_iff_no_persist storeGhost 7 2024 1).1.mp hr
    revert hex
    decide
  · exact (c7_notfound_iff_no_persist storeGhost 7 2024 1).2
      "Employee not found or inactive" rfl

/-- The batch loop returns the accumulator followed by exactly the
successfully computed results, skipping failed employees. -/
theorem generateAux_results (y m : Nat) (base : Store) :
    ∀ (emps : List EmployeeRow) (s : Store) (acc : List PayrollResult),
    s.employees = base.employees → s.attendance = base.attendance →
    s.adjustments = base.adjustments →
    (generateAux y m emps s acc).2 =
      acc ++ emps.filterMap
        (fun e => (compute_for_employee base e.id y m (some e.rate)).toOption) := by
  intro emps
  induction emps with
  | nil =>
    intro s acc h1 h2 h3
    simp [generateAux]
  | cons e rest ih =>
    intro s acc h1 h2 h3
    have hce : compute_for_employee s e.id y m (some e.rate) =
        compute_for_employee base e.id y m (some e.rate) :=
      compute_store_ext s base h1 h2 h3 e.id y m (some e.rate)
    unfold generateAux
    rw [hce]
    cases hc : compute_for_employee base e.id y m (some e.rate) with
    | ok pr =>
      dsimp only
      rw [ih (insertRun s e.id y m pr) (acc ++ [pr]) h1 h2 h3,
        List.filterMap_cons, hc]
      simp [Except.toOption]
    | error err =>
      dsimp only
      rw [ih s acc h1 h2 h3, List.filterMap_cons, hc]
      simp [Except.toOption]

/-- The batch loop inserts one `payroll_runs` row per collected
result. -/
theorem generateAux_run_count (y m : Nat) :
    ∀ (emps : List EmployeeRow) (s : Store) (acc : List PayrollResult),
    (generateAux y m emps s acc).1.payroll_runs.length + acc.length =
      s.payroll_runs.length + (generateAux y m emps s acc).2.length := by
  intro emps
  induction emps with
  | nil =>
    intro s acc
    simp [generateAux]
  | cons e rest ih =>
    intro s acc
    unfold generateAux
    cases hc : compute_for_employee s e.id y m (some e.rate) with
    | ok pr =>
      dsimp only
      have hstep := ih (insertRun s e.id y m pr) (acc ++ [pr])
      have hlen : (insertRun s e.id y m pr).payroll_runs.length =
          s.payroll_runs.length + 1 := by
        simp [insertRun]
      rw [hlen] at hstep
      simp only [List.length_append, List.length_cons, List.length_nil] at hstep ⊢
      omega
    | error err =>
      dsimp only
      exact ih s acc

/-- C9: the batch never propagates a single employee's failure — the
returned list is exactly the successes among the active employees, and
exactly one run row is inserted per success. -/
theorem c9_generate_partial_success (store : Store) (y m : Nat) :
    (generate_payroll_for_month store y m).2 =
      (store.employees.filter (fun e => e.active)).filterMap
        (fun e => (compute_for_employee store e.id y m (some e.rate)).toOption) ∧
    (generate_payroll_for_month store y m).1.payroll_runs.length =
      store.payroll_runs.length + (generate_payroll_for_month store y m).2.length := by
  constructor
  · unfold generate_payroll_for_month
    simpa using generateAux_results y m store
      (store.employees.filter (fun e => e.active)) store [] rfl rfl rfl
  · have h := generateAux_run_count y m
      (store.employees.filter (fun e => e.active)) store []
    unfold generate_payroll_for_month
    simpa using h

/-- One running iteration of the service loop. -/
theorem svcAuxF_step (fuel : Nat) (parsed : List (String × DateTime)) (i : Nat)
    (b : List (String × ℚ)) (h : i < parsed.length) :
    svcAuxF (fuel + 1) parsed i b =
      svcAuxF fuel parsed (stepCursor parsed i)
        (match svcContrib parsed i with
         | some p => addHours b p.1 p.2
         | none => b) := by
  simp only [svcAuxF, if_pos h]

/-- The service loop stops once the cursor leaves the list. -/
theorem svcAuxF_done (fuel : Nat) (parsed : List (String × DateTime)) (i : Nat)
    (b : List (String × ℚ)) (h : ¬ i < parsed.length) :
    svcAuxF fuel parsed i b = b := by
  cases fuel with
  | zero => rfl
  | succ fuel => simp only [svcAuxF, if_neg h]

/-- Adding hours under a key absent from the buckets appends a fresh
entry. -/
theorem addHours_nil (d : String) (h : ℚ) : addHours [] d h = [(d, h)] := by
  simp [addHours]

/-- Adding hours to the single existing bucket of the same day
accumulates additively. -/
theorem addHours_single_same (d : String) (a h : ℚ) :
    addHours [(d, a)] d h = [(d, a + h)] := by
  simp [addHours, updateRunRow]

/-- A matched sign-in/sign-out step: contribution is the whole duration
in hours keyed by the sign-in's calendar date, and the cursor jumps past
the matched sign-out. -/
theorem svcContrib_matched (parsed : List (String × DateTime)) (i : Nat)
    (e o : String × DateTime) (he : parsed[i]? = some e)
    (ho : parsed[findOut parsed (i + 1)]? = some o)
    (hin : e.1 = "sign_in") (hlt : e.2.toSecs < o.2.toSecs) :
    svcContrib parsed i =
      some (e.2.dayKey, ((o.2.toSecs - e.2.toSecs : ℤ) : ℚ) / 3600) ∧
    stepCursor parsed i = findOut parsed (i + 1) + 1 := by
  constructor
  · unfold svcContrib
    rw [he, ho]
    dsimp only
    rw [if_pos ⟨hin, hlt⟩]
  · unfold stepCursor
    rw [he]
    dsimp only
    rw [if_pos hin, if_pos (List.getElem?_eq_some_iff.mp ho).1]

/-- C8: a sign-in matched with a strictly later sign-out contributes the
whole duration in hours to the bucket keyed by the sign-in's calendar
date, and the cursor jumps past the sign-out; bucket accumulation is
additive; concretely, an overnight 22:00-06:00 pair books 8 hours
entirely on the starting day, and two pairs of 3h and 4h on one day
accumulate to a single 7-hour bucket. -/
theorem c8_matched_pair_day_attribution :
    (∀ (parsed : List (String × DateTime)) (i : Nat) (e o : String × DateTime),
      parsed[i]? = some e → parsed[findOut parsed (i + 1)]? = some o →
      e.1 = "sign_in" → e.2.toSecs < o.2.toSecs →
      svcContrib parsed i =
        some (e.2.dayKey, ((o.2.toSecs - e.2.toSecs : ℤ) : ℚ) / 3600) ∧
      stepCursor parsed i = findOut parsed (i + 1) + 1) ∧
    (∀ (b : List (String × ℚ)) (d : String) (h : ℚ),
      lookupQ (addHours b d h) d = lookupQ b d + h) ∧
    svcPairEvents evOvernight = [("2024-01-15", 8)] ∧
    svcPairEvents evTwoPairs = [("2024-01-15", 7)] := by
  refine ⟨fun parsed i e o he ho hin hlt =>
    svcContrib_matched parsed i e o he ho hin hlt, lookupQ_addHours, ?_, ?_⟩
  · have hc0 : svcContrib evOvernight 0 =
        some ("2024-01-15", ((28800 : ℤ) : ℚ) / 3600) := by
      unfold svcContrib
      rw [show evOvernight[0]? = some ("sign_in", ⟨2024, 1, 15, 22, 0, 0⟩) from
          by decide,
        show evOvernight[findOut evOvernight 1]? =
          some ("sign_out", ⟨2024, 1, 16, 6, 0, 0⟩) from by decide]
      dsimp only
      rw [if_pos ⟨rfl, by decide⟩,
        show ((⟨2024, 1, 16, 6, 0, 0⟩ : DateTime).toSecs -
          (⟨2024, 1, 15, 22, 0, 0⟩ : DateTime).toSecs) = (28800 : ℤ) from by decide,
        show (⟨2024, 1, 15, 22, 0, 0⟩ : DateTime).dayKey = "2024-01-15" from
          by decide]
    unfold svcPairEvents
    rw [svcAuxF_step _ _ _ _ (by decide), hc0]
    dsimp only
    rw [show stepCursor evOvernight 0 = 2 from by decide,
      svcAuxF_done _ _ _ _ (by decide), addHours_nil]
    norm_num
  · have hc0 : svcContrib evTwoPairs 0 =
        some ("2024-01-15", ((10800 : ℤ) : ℚ) / 3600) := by
      unfold svcContrib
      rw [show evTwoPairs[0]? = some ("sign_in", ⟨2024, 1, 15, 9, 0, 0⟩) from
          by decide,
        show evTwoPairs[findOut evTwoPairs 1]? =
          some ("sign_out", ⟨2024, 1, 15, 12, 0, 0⟩) from by decide]
      dsimp only
      rw [if_pos ⟨rfl, by decide⟩,
        show ((⟨2024, 1, 15, 12, 0, 0⟩ : DateTime).toSecs -
          (⟨2024, 1, 15, 9, 0, 0⟩ : DateTime).toSecs) = (10800 : ℤ) from by decide,
        show (⟨2024, 1, 15, 9, 0, 0⟩ : DateTime).dayKey = "2024-01-15" from
          by decide]
    have hc2 : svcContrib evTwoPairs 2 =
        some ("2024-01-15", ((14400 : ℤ) : ℚ) / 3600) := by
      unfold svcContrib
      rw [show evTwoPairs[2]? = some ("sign_in", ⟨2024, 1, 15, 13, 0, 0⟩) from
          by decide,
        show evTwoPairs[findOut evTwoPairs 3]? =
          some ("sign_out", ⟨2024, 1, 15, 17, 0, 0⟩) from by decide]
      dsimp only
      rw [if_pos ⟨rfl, by decide⟩,
        show ((⟨2024, 1, 15, 17, 0, 0⟩ : DateTime).toSecs -
          (⟨2024, 1, 15, 13, 0, 0⟩ : DateTime).toSecs) = (14400 : ℤ) from by decide,
        show (⟨2024, 1, 15, 13, 0, 0⟩ : DateTime).dayKey = "2024-01-15" from
          by decide]
    unfold svcPairEvents
    rw [svcAuxF_step _ _ _ _ (by decide), hc0]
    dsimp only
    rw [show stepCursor evTwoPairs 0 = 2 from by decide, addHours_nil,
      show evTwoPairs.length = 3 + 1 from rfl,
      svcAuxF_step _ _ _ _ (by decide), hc2]
    dsimp only
    rw [show stepCursor evTwoPairs 2 = 4 from by decide,
      svcAuxF_done _ _ _ _ (by decide), addHours_single_same]
    norm_num

/-- Witness for C8's general matched-pair step at the concrete overnight
pair. -/
theorem c8_matched_pair_day_attribution_witness :
    svcContrib evOvernight 0 =
      some ((⟨2024, 1, 15, 22, 0, 0⟩ : DateTime).dayKey,
        (((⟨2024, 1, 16, 6, 0, 0⟩ : DateTime).toSecs -
          (⟨2024, 1, 15, 22, 0, 0⟩ : DateTime).toSecs : ℤ) : ℚ) / 3600) ∧
    stepCursor evOvernight 0 = findOut evOvernight 1 + 1 :=
  c8_matched_pair_day_attribution.1 evOvernight 0
    ("sign_in", ⟨2024, 1, 15, 22, 0, 0⟩) ("sign_out", ⟨2024, 1, 16, 6, 0, 0⟩)
    (by decide) (by decide) rfl (by decide)

/-- The service scan books the single 08:00-19:00 pair as 11 hours on
2024-03-05. -/
theorem svcPairEvents_scenario : svcPairEvents evScenario = [("2024-03-05", 11)] := by
  have hc0 : svcContrib evScenario 0 =
      some ("2024-03-05", ((39600 : ℤ) : ℚ) / 3600) := by
    unfold svcContrib
    rw [show evScenario[0]? = some ("sign_in", ⟨2024, 3, 5, 8, 0, 0⟩) from by decide,
      show evScenario[findOut evScenario 1]? =
        some ("sign_out", ⟨2024, 3, 5, 19, 0, 0⟩) from by decide]
    dsimp only
    rw [if_pos ⟨rfl, by decide⟩,
      show ((⟨2024, 3, 5, 19, 0, 0⟩ : DateTime).toSecs -
        (⟨2024, 3, 5, 8, 0, 0⟩ : DateTime).toSecs) = (39600 : ℤ) from by decide,
      show (⟨2024, 3, 5, 8, 0, 0⟩ : DateTime).dayKey = "2024-03-05" from by decide]
  unfold svcPairEvents
  rw [svcAuxF_step _ _ _ _ (by decide), hc0]
  dsimp only
  rw [show stepCursor evScenario 0 = 2 from by decide,
    svcAuxF_done _ _ _ _ (by decide), addHours_nil]
  norm_num

/-- The March 2024 query of `store2` parses to `evScenario`. -/
theorem parsedEventsFor_store2 : parsedEventsFor store2 1 2024 3 = evScenario := by
  unfold parsedEventsFor attendanceRowsFor
  rw [List.mergeSort_of_sorted (by decide)]
  decide

/-- Day-hours mapping of `store2` for March 2024. -/
theorem aggregate_store2 :
    aggregate_hours_by_day store2 1 2024 3 = [("2024-03-05", 11)] := by
  unfold aggregate_hours_by_day
  rw [parsedEventsFor_store2, svcPairEvents_scenario]

/-- Adjustment total of `store2` for March 2024. -/
theorem sum_adjustments_store2 : sum_adjustments store2 1 2024 3 = -50 := by
  unfold sum_adjustments
  norm_num [store2]

/-- Full pipeline run on the spec's 11-hour scenario. -/
theorem compute_store2_scenario :
    compute_for_employee store2 1 2024 3 none =
      Except.ok ⟨1, "Alice", "2024-03", 10, 8, 3, 125, -50, 45/4, 255/4⟩ := by
  unfold compute_for_employee resolveRate get_employee_rate
  rw [show store2.employees.find? (fun e => e.id == 1 && e.active) =
    some ⟨1, "Alice", 10, true⟩ from by decide]
  dsimp only
  rw [aggregate_store2, sum_adjustments_store2]
  simp only [regularAgg, overtimeAgg, List.map_cons, List.map_nil, List.sum_cons,
    List.sum_nil, Except.ok.injEq, PayrollResult.mk.injEq]
  refine ⟨trivial, trivial, by decide, ?_, ?_, ?_, ?_, ?_, ?_, ?_⟩ <;>
    norm_num [round2, rhe, min_def, max_def]

/-- C2: the calculator computes, in order, gross from the unrounded
aggregated hours (overtime at 1.5x), rounded; adjustments rounded; the
unrounded net-before-tax `gross + adjustments`; tax at 15% of it,
rounded; and net as the rounded difference — and on the spec's 11-hour
scenario it yields regular 8, overtime 3, gross 125.00, adjustments -50,
tax 11.25 and net 63.75. -/
theorem c2_calculator_rounding_order :
    (∀ (store : Store) (eid y m : Nat) (hr : Option ℚ) (rate : ℚ)
      (r : PayrollResult),
      resolveRate store eid hr = Except.ok rate →
      compute_for_employee store eid y m hr = Except.ok r →
      r.gross = round2 (regularAgg (aggregate_hours_by_day store eid y m) * rate +
        overtimeAgg (aggregate_hours_by_day store eid y m) * rate * (3 / 2)) ∧
      r.adjustments = round2 (sum_adjustments store eid y m) ∧
      r.tax = round2 ((r.gross + r.adjustments) * (15 / 100)) ∧
      r.net = round2 (r.gross + r.adjustments - r.tax) ∧
      r.regular_hours = round2 (regularAgg (aggregate_hours_by_day store eid y m)) ∧
      r.overtime_hours = round2 (overtimeAgg (aggregate_hours_by_day store eid y m)) ∧
      r.hourly_rate = round2 rate) ∧
    compute_for_employee store2 1 2024 3 none =
      Except.ok ⟨1, "Alice", "2024-03", 10, 8, 3, 125, -50, 45 / 4, 255 / 4⟩ := by
  refine ⟨?_, compute_store2_scenario⟩
  intro store eid y m hr rate r hres hcomp
  unfold compute_for_employee at hcomp
  rw [hres] at hcomp
  dsimp only at hcomp
  cases hf : store.employees.find? (fun e => e.id == eid && e.active) with
  | none =>
    rw [hf] at hcomp
    exact absurd hcomp (by simp)
  | some emp =>
    rw [hf] at hcomp
    dsimp only at hcomp
    rw [Except.ok.injEq] at hcomp
    subst hcomp
    exact ⟨rfl, rfl, rfl, rfl, rfl, rfl, rfl⟩

/-- Witness for C2's general rounding pipeline at the 11-hour
scenario. -/
theorem c2_calculator_rounding_order_witness :
    (125 : ℚ) = round2 (regularAgg (aggregate_hours_by_day store2 1 2024 3) * 10 +
      overtimeAgg (aggregate_hours_by_day store2 1 2024 3) * 10 * (3 / 2)) ∧
    (-50 : ℚ) = round2 (sum_adjustments store2 1 2024 3) ∧
    (45 / 4 : ℚ) = round2 ((125 + -50) * (15 / 100)) ∧
    (255 / 4 : ℚ) = round2 (125 + -50 - 45 / 4) ∧
    (8 : ℚ) = round2 (regularAgg (aggregate_hours_by_day store2 1 2024 3)) ∧
    (3 : ℚ) = round2 (overtimeAgg (aggregate_hours_by_day store2 1 2024 3)) ∧
    (10 : ℚ) = round2 10 :=
  c2_calculator_rounding_order.1 store2 1 2024 3 none 10
    ⟨1, "Alice", "2024-03", 10, 8, 3, 125, -50, 45 / 4, 255 / 4⟩ rfl
    c2_calculator_rounding_order.2

/-- C1 fails on the code: `generate_payroll_for_month` persists with a
plain INSERT and the schema has no unique constraint, so re-running the
generation for the same month leaves two `payroll_runs` rows for the key
`(1, 2024, 1)` instead of overwriting one in place. -/
theorem c1_generate_inserts_duplicate_rows :
    (generate_payroll_for_month
        (generate_payroll_for_month storeC1 2024 1).1 2024 1).1.payroll_runs.countP
      (runKey 1 2024 1) = 2 ∧
    ¬ (generate_payroll_for_month
        (generate_payroll_for_month storeC1 2024 1).1 2024 1).1.payroll_runs.countP
      (runKey 1 2024 1) ≤ 1 := by
  decide

/-- Upserting never touches the employees table. -/
theorem upsertRun_employees (s : Store) (eid y m : Nat) (pr : PayrollResult) :
    (upsertRun s eid y m pr).employees = s.employees := by
  unfold upsertRun
  cases s.payroll_runs.find? (runKey eid y m) <;> rfl

/-- Upserting never touches the attendance table. -/
theorem upsertRun_attendance (s : Store) (eid y m : Nat) (pr : PayrollResult) :
    (upsertRun s eid y m pr).attendance = s.attendance := by
  unfold upsertRun
  cases s.payroll_runs.find? (runKey eid y m) <;> rfl

/-- Upserting never touches the adjustments table. -/
theorem upsertRun_adjustments (s : Store) (eid y m : Nat) (pr : PayrollResult) :
    (upsertRun s eid y m pr).adjustments = s.adjustments := by
  unfold upsertRun
  cases s.payroll_runs.find? (runKey eid y m) <;> rfl

/-- The UPDATE rewrite keeps the key columns of every row. -/
theorem updateRunRow_key (eid y m rid : Nat) (pr : PayrollResult)
    (r : PayrollRunRow) :
    runKey eid y m (updateRunRow rid pr r) = runKey eid y m r := by
  unfold updateRunRow runKey
  split <;> rfl

/-- The UPDATE rewrite keeps the number of rows matching the key. -/
theorem countP_map_update (eid y m rid : Nat) (pr : PayrollResult)
    (l : List PayrollRunRow) :
    (l.map (updateRunRow rid pr)).countP (runKey eid y m) =
      l.countP (runKey eid y m) := by
  rw [List.countP_map]
  exact List.countP_congr (fun x hx => by simp [Function.comp, updateRunRow_key])

/-- C4: starting from a store with at most one run row for the key,
persisting twice with identical inputs succeeds with the same result
both times and leaves exactly one row for the key, carrying the second
call's computed fields (update in place when present, insert otherwise;
last write wins). -/
theorem c4_persist_idempotent_upsert (store : Store) (eid y m : Nat)
    (hr : Option ℚ) (s1 s2 : Store) (r1 r2 : PayrollResult)
    (hcount : store.payroll_runs.countP (runKey eid y m) ≤ 1)
    (h1 : persist_for_employee store eid y m hr = (s1, Except.ok r1))
    (h2 : persist_for_employee s1 eid y m hr = (s2, Except.ok r2)) :
    r2 = r1 ∧ s2.payroll_runs.countP (runKey eid y m) = 1 ∧
    ∃ row ∈ s2.payroll_runs, runKey eid y m row = true ∧
      row.regular_hours = r2.regular_hours ∧
      row.overtime_hours = r2.overtime_hours ∧
      row.hourly_rate = r2.hourly_rate ∧ row.gross_pay = r2.gross ∧
      row.total_adjustments = r2.adjustments ∧ row.net_pay = r2.net := by
  cases hc1 : compute_for_employee store eid y m hr with
  | error err =>
    unfold persist_for_employee at h1
    rw [hc1] at h1
    simp at h1
  | ok pr =>
    unfold persist_for_employee at h1
    rw [hc1] at h1
    dsimp only at h1
    rw [Prod.mk.injEq] at h1
    obtain ⟨hs1, hr1⟩ := h1
    rw [Except.ok.injEq] at hr1
    subst hr1
    have hcs1 : compute_for_employee s1 eid y m hr = Except.ok pr := by
      have hext := compute_store_ext s1 store
        (by rw [← hs1]; exact upsertRun_employees store eid y m pr)
        (by rw [← hs1]; exact upsertRun_attendance store eid y m pr)
        (by rw [← hs1]; exact upsertRun_adjustments store eid y m pr) eid y m hr
      rw [hext, hc1]
    unfold persist_for_employee at h2
    rw [hcs1] at h2
    dsimp only at h2
    rw [Prod.mk.injEq] at h2
    obtain ⟨hs2, hr2⟩ := h2
    rw [Except.ok.injEq] at hr2
    subst hr2
    refine ⟨rfl, ?_⟩
    cases hfind : store.payroll_runs.find? (runKey eid y m) with
    | none =>
      have hs1runs : s1.payroll_runs =
          store.payroll_runs ++ [newRunRow store eid y m pr] := by
        rw [← hs1]
        unfold upsertRun
        rw [hfind]
        rfl
      have hcount0 : store.payroll_runs.countP (runKey eid y m) = 0 :=
        List.countP_eq_zero.mpr (List.find?_eq_none.mp hfind)
      have hknew : runKey eid y m (newRunRow store eid y m pr) = true := by
        simp [runKey, newRunRow]
      have hfind1 : s1.payroll_runs.find? (runKey eid y m) =
          some (newRunRow store eid y m pr) := by
        rw [hs1runs, List.find?_append, hfind, List.find?_cons_of_pos _ hknew]
        rfl
      have hs2runs : s2.payroll_runs = s1.payroll_runs.map
          (updateRunRow (newRunRow store eid y m pr).id pr) := by
        rw [← hs2]
        unfold upsertRun
        rw [hfind1]
      constructor
      · rw [hs2runs, countP_map_update, hs1runs, List.countP_append, hcount0]
        simp [List.countP_cons, hknew]
      · refine ⟨updateRunRow (newRunRow store eid y m pr).id pr
          (newRunRow store eid y m pr), ?_, ?_, ?_, ?_, ?_, ?_, ?_, ?_⟩
        · rw [hs2runs]
          refine List.mem_map.mpr ⟨newRunRow store eid y m pr, ?_, rfl⟩
          rw [hs1runs]
          exact List.mem_append.mpr (Or.inr (List.mem_singleton.mpr rfl))
        · rw [updateRunRow_key]
          exact hknew
        · simp [updateRunRow]
        · simp [updateRunRow]
        · simp [updateRunRow]
        · simp [updateRunRow]
        · simp [updateRunRow]
        · simp [updateRunRow]
    | some ex =>
      have hpos : 0 < store.payroll_runs.countP (runKey eid y m) :=
        List.countP_pos_iff.mpr
          ⟨ex, List.mem_of_find?_eq_some hfind, List.find?_some hfind⟩
      have hcnt1 : store.payroll_runs.countP (runKey eid y m) = 1 := by omega
      have hs1runs : s1.payroll_runs =
          store.payroll_runs.map (updateRunRow ex.id pr) := by
        rw [← hs1]
        unfold upsertRun
        rw [hfind]
      have hc1' : s1.payroll_runs.countP (runKey eid y m) = 1 := by
        rw [hs1runs, countP_map_update]
        exact hcnt1
      obtain ⟨ex2, hfe2⟩ : ∃ ex2,
          s1.payroll_runs.find? (runKey eid y m) = some ex2 := by
        cases hfe : s1.payroll_runs.find? (runKey eid y m) with
        | some ex2 => exact ⟨ex2, rfl⟩
        | none =>
          have h0 : s1.payroll_runs.countP (runKey eid y m) = 0 :=
            List.countP_eq_zero.mpr (List.find?_eq_none.mp hfe)
          rw [h0] at hc1'
          exact absurd hc1' (by decide)
      have hs2runs : s2.payroll_runs =
          s1.payroll_runs.map (updateRunRow ex2.id pr) := by
        rw [← hs2]
        unfold upsertRun
        rw [hfe2]
      constructor
      · rw [hs2runs, countP_map_update]
        exact hc1'
      · refine ⟨updateRunRow ex2.id pr ex2, ?_, ?_, ?_, ?_, ?_, ?_, ?_, ?_⟩
        · rw [hs2runs]
          exact List.mem_map.mpr ⟨ex2, List.mem_of_find?_eq_some hfe2, rfl⟩
        · rw [updateRunRow_key]
          exact List.find?_some hfe2
        · simp [updateRunRow]
        · simp [updateRunRow]
        · simp [updateRunRow]
        · simp [updateRunRow]
        · simp [updateRunRow]
        · simp [updateRunRow]

/-- Zero attendance still computes a full (all-zero) payroll result. -/
theorem compute_storeC1_zero :
    compute_for_employee storeC1 1 2024 1 none = Except.ok resultZero := by
  unfold compute_for_employee resolveRate get_employee_rate
  rw [show storeC1.employees.find? (fun e => e.id == 1 && e.active) =
    some ⟨1, "Alice", 10, true⟩ from by decide]
  dsimp only
  rw [show aggregate_hours_by_day storeC1 1 2024 1 = [] from by
    unfold aggregate_hours_by_day parsedEventsFor attendanceRowsFor svcPairEvents
    simp [List.mergeSort_nil, svcAuxF, storeC1]]
  rw [show sum_adjustments storeC1 1 2024 1 = 0 from by
    unfold sum_adjustments
    simp [storeC1]]
  simp only [regularAgg, overtimeAgg, List.map_nil, List.sum_nil]
  unfold resultZero
  simp only [Except.ok.injEq, PayrollResult.mk.injEq]
  refine ⟨trivial, trivial, by decide, ?_, ?_, ?_, ?_, ?_, ?_, ?_⟩ <;>
    norm_num [round2, rhe]

/-- Witness for C4: two identical persists of the zero-hours result on
`storeC1` end in `storeC4a` with exactly one row for the key. -/
theorem c4_persist_idempotent_upsert_witness :
    resultZero = resultZero ∧
    storeC4a.payroll_runs.countP (runKey 1 2024 1) = 1 ∧
    ∃ row ∈ storeC4a.payroll_runs, runKey 1 2024 1 row = true ∧
      row.regular_hours = resultZero.regular_hours ∧
      row.overtime_hours = resultZero.overtime_hours ∧
      row.hourly_rate = resultZero.hourly_rate ∧
      row.gross_pay = resultZero.gross ∧
      row.total_adjustments = resultZero.adjustments ∧
      row.net_pay = resultZero.net := by
  have hp1 : persist_for_employee storeC1 1 2024 1 none =
      (storeC4a, Except.ok resultZero) := by
    unfold persist_for_employee
    rw [compute_storeC1_zero]
    dsimp only
    unfold upsertRun
    rw [show storeC1.payroll_runs.find? (runKey 1 2024 1) = none from rfl]
    rfl
  have hp2 : persist_for_employee storeC4a 1 2024 1 none =
      (storeC4a, Except.ok resultZero) := by
    have hcz2 : compute_for_employee storeC4a 1 2024 1 none =
        Except.ok resultZero := by
      rw [compute_store_ext storeC4a storeC1 rfl rfl rfl 1 2024 1 none]
      exact compute_storeC1_zero
    unfold persist_for_employee
    rw [hcz2]
    dsimp only
    unfold upsertRun
    rw [show storeC4a.payroll_runs.find? (runKey 1 2024 1) = some runRowZero from
      by decide]
    rfl
  exact c4_persist_idempotent_upsert storeC1 1 2024 1 none storeC4a storeC4a
    resultZero resultZero (by decide) hp1 hp2
